import Mathlib

/-!
Shallow embedding of the walleye pollock egg IBM core
(`src/IBM/ACTEA_walleye_pollock.py`, class `LarvalFish`).

Conventions of the embedding:
* machine floating point becomes exact rationals `ℚ`; the transcendental parts
  of the high-Reynolds branch (`np.exp`, fractional powers) live in `ℝ`;
* IEEE NaN outcomes (a negative base raised to a non-integer power, the
  division by zero inside the high-Reynolds correction, and the scipy
  `interp1d(..., bounds_error=False)` out-of-bounds fill value) are modelled
  as `none : Option _`;
* the vectorized numpy statements act elementwise on the particle arrays,
  gated by the `hatched == 0` index masks, so the embedding is a per-particle
  transition function;
* `self.sea_water_density(T, S)` is an external collaborator of the host
  framework (OpenDrift); the solver takes its value `DENSw` as an input.
-/

namespace ACTEA

/-- Gravity `g = 9.81` (m s⁻²) from `update_terminal_velocity`. -/
def g : ℚ := 9.81

/-- Dynamic water viscosity
`my_w = 0.001 * (1.7915 - 0.0538 * T0 + 0.007 * (T0 ** (2.0)) - 0.0023 * S0)`. -/
def my_w (T0 S0 : ℚ) : ℚ :=
  0.001 * (1.7915 - 0.0538 * T0 + 0.007 * T0 ^ 2 - 0.0023 * S0)

/-- Low-Reynolds (Stokes) terminal velocity
`W = (1.0 / my_w) * (1.0 / 18.0) * g * eggsize ** 2 * dr` with
`dr = DENSw - density_egg` (water density minus egg density). -/
def W_stokes (DENSw density_egg eggsize T0 S0 : ℚ) : ℚ :=
  (1 / my_w T0 S0) * (1 / 18) * g * eggsize ^ 2 * (DENSw - density_egg)

/-- Reynolds-regime test quantity `W * 1000 * eggsize / my_w` whose comparison
with `0.5` selects the branch (`highRe = np.where(W * 1000 * eggsize / my_w > 0.5)`). -/
def reynolds (DENSw density_egg eggsize T0 S0 : ℚ) : ℚ :=
  W_stokes DENSw density_egg eggsize T0 S0 * 1000 * eggsize / my_w T0 S0

/-- Kinematic viscosity in cgs units, `my_w = 0.01854 * np.exp(-0.02783 * T0)`,
used only by the high-Reynolds empirical equations. -/
noncomputable def my_w_cgs (T0 : ℝ) : ℝ := 0.01854 * Real.exp (-0.02783 * T0)

/-- numpy real power `x ** e` for non-integer `e`: a negative base yields NaN,
modelled as `none`. -/
noncomputable def npPow (x e : ℝ) : Option ℝ :=
  if x < 0 then none else some (x ^ e)

/-- High-Reynolds empirical terminal velocity (m/s):
`d0 = (eggsize * 100) - 0.4 * (9.0 * my_w ** 2 / (100 * g) * DENSw / dr) ** (1/3)` (cm),
`W2 = 19.0 * d0 * (0.001 * dr) ** (2/3) * (my_w * 0.001 * DENSw) ** (-1/3)` (cm/s),
then divided by 100.  The NaN cases of the source (for `dr = 0` the division
`DENSw / dr` overflows to ±inf and the product with the vanishing
`(0.001 * dr) ** (2/3)` factor is NaN; for `dr < 0` the fractional powers have
negative bases) are `none`. -/
noncomputable def W2 (DENSw density_egg eggsize T0 : ℚ) : Option ℝ :=
  let dr : ℚ := DENSw - density_egg
  if dr = 0 then none else
  match npPow (9 * my_w_cgs (T0 : ℝ) ^ 2 / (100 * (g : ℝ)) * (DENSw : ℝ) / (dr : ℝ)) ((1 : ℝ) / 3),
        npPow ((0.001 : ℝ) * (dr : ℝ)) ((2 : ℝ) / 3),
        npPow (my_w_cgs (T0 : ℝ) * 0.001 * (DENSw : ℝ)) (-((1 : ℝ) / 3)) with
  | some a, some b, some c =>
      some (19 * ((eggsize : ℝ) * 100 - 0.4 * a) * b * c / 100)
  | _, _, _ => none

/-- One particle of `update_terminal_velocity` (point-sample environment):
`W[highRe] = W2[highRe]; self.elements.terminal_velocity = W` becomes a
branch on the Reynolds test.  `DENSw` is the ambient water density
`self.sea_water_density(T0, S0)`, an external collaborator. -/
noncomputable def terminalVelocity (DENSw density_egg eggsize T0 S0 : ℚ) : Option ℝ :=
  if reynolds DENSw density_egg eggsize T0 S0 > 0.5 then
    W2 DENSw density_egg eggsize T0
  else
    some ((W_stokes DENSw density_egg eggsize T0 S0 : ℚ) : ℝ)

/-- Per-particle state: the `LarvalFishElement` attributes touched by the
three core operations (`hatched` is a `np.uint8`, modelled as `ℕ`;
`terminal_velocity` may be NaN, hence `Option ℝ`). -/
structure Particle where
  diameter : ℚ
  stage_fraction : ℚ
  age : ℚ
  density : ℚ
  hatched : ℕ
  terminal_velocity : Option ℝ

/-- Run configuration attributes assigned in `LarvalFish.__init__` and
overridden field-by-field by the driver script. -/
structure Config where
  constant_egg_density : Bool
  dark_or_light_egg_density : String
  port_townsend_eggs : Bool

/-- `LarvalFish.__init__` assigns `constant_egg_density = False`,
`dark_or_light_egg_density = "light"`, `port_townsend_eggs = True`; it
performs no validation of any selector. -/
def initConfig : Config :=
  { constant_egg_density := false
    dark_or_light_egg_density := "light"
    port_townsend_eggs := true }

/-- Setup as performed by the driver (`ACTEA_run_drift_eggs.py`): plain
attribute assignment after `__init__`, accepting any string; no validation
occurs at setup time. -/
def setConfig (dl : String) (pt : Bool) : Config :=
  { initConfig with dark_or_light_egg_density := dl, port_townsend_eggs := pt }

/-- Development-rate regression of `update_fish_eggs`:
`amb_duration = 0.0506982 + 0.0149187 * sea_water_temperature` (fraction of
total development per day). -/
def amb_duration (T : ℚ) : ℚ := 0.0506982 + 0.0149187 * T

/-- One particle of `update_fish_eggs`: for `hatched == 0`,
`stage_fraction += days_in_timestep * amb_duration`, `age += days_in_timestep`
with `days_in_timestep = timestep_seconds / 86400`, then `hatched = 1` where
the updated `stage_fraction >= 1`; hatched particles are untouched. -/
def updateFishEggs (T ts : ℚ) (p : Particle) : Particle :=
  if p.hatched = 0 then
    let days_in_timestep := ts / 86400
    let sf := p.stage_fraction + days_in_timestep * amb_duration T
    { p with
      stage_fraction := sf
      age := p.age + days_in_timestep
      hatched := if sf ≥ 1 then 1 else p.hatched }
  else p

/-- Breakpoints `egg_stage` of `update_egg_density` (16 stage fractions). -/
def egg_stage : List ℚ :=
  [0, 0.066666667, 0.133333333, 0.2, 0.266666667, 0.333333333, 0.4,
   0.466666667, 0.533333333, 0.6, 0.666666667, 0.733333333, 0.8,
   0.866666667, 0.933333333, 1]

/-- Table for `port_townsend_eggs` and `dark_or_light_egg_density == "dark"`
(values before the `* 1000.` scaling). -/
def egg_density_pt_dark : List ℚ :=
  [1.024446663, 1.024665364, 1.024937853, 1.02484257, 1.024994585,
   1.024975082, 1.024875345, 1.024765756, 1.024764591, 1.024751739,
   1.024760701, 1.024879361, 1.025103333, 1.025475083, 1.026092269,
   1.026719133]

/-- Table for `port_townsend_eggs` and `dark_or_light_egg_density == "light"`. -/
def egg_density_pt_light : List ℚ :=
  [1.024413091, 1.02464518, 1.024770682, 1.025047026, 1.024993654,
   1.025047998, 1.024956875, 1.024893251, 1.024938948, 1.024999149,
   1.025016702, 1.025019958, 1.025217969, 1.025624979, 1.025998044,
   1.026675837]

/-- Table for non-`port_townsend_eggs` and `"dark"`. -/
def egg_density_npt_dark : List ℚ :=
  [1.024965885, 1.025167579, 1.025282136, 1.0253613, 1.025440456,
   1.025406614, 1.02533438, 1.025357889, 1.025349958, 1.025311835,
   1.025300872, 1.025253598, 1.025457323, 1.025680634, 1.026287275,
   1.026824609]

/-- Table for non-`port_townsend_eggs` and `"light"`. -/
def egg_density_npt_light : List ℚ :=
  [1.024966891, 1.025198241, 1.025357486, 1.025462898, 1.025572679,
   1.025602902, 1.025576521, 1.025518015, 1.025496942, 1.025441822,
   1.025372264, 1.02525809, 1.02542082, 1.025739589, 1.026090628,
   1.026637115]

/-- Variant selection of `update_egg_density`: the nested
`if self.port_townsend_eggs: if dark / elif light / else: if dark / elif light`
chain, including the `* 1000.` scaling.  When the selector matches neither
`"dark"` nor `"light"` the local variable `egg_density` is never bound and the
later use raises `UnboundLocalError`; that failure is `none`. -/
def egg_density_table (pt : Bool) (dl : String) : Option (List ℚ) :=
  if pt then
    if dl = "dark" then some (egg_density_pt_dark.map (· * 1000))
    else if dl = "light" then some (egg_density_pt_light.map (· * 1000))
    else none
  else
    if dl = "dark" then some (egg_density_npt_dark.map (· * 1000))
    else if dl = "light" then some (egg_density_npt_light.map (· * 1000))
    else none

/-- `find_nearest(array, value) = (np.abs(array - value)).argmin()`: the first
index attaining the minimum of `|array[i] - value|` (`np.argmin` returns the
first occurrence on ties). -/
def find_nearest : List ℚ → ℚ → ℕ
  | [], _ => 0
  | [_], _ => 0
  | x :: y :: xs, v =>
    let k := find_nearest (y :: xs) v
    if |(y :: xs).getD k 0 - v| < |x - v| then k + 1 else 0

/-- Density value fetched for one stage fraction:
`egg_density[find_nearest(egg_stage, value)]` under the selected variant. -/
def lookup_density (pt : Bool) (dl : String) (sf : ℚ) : Option ℚ :=
  (egg_density_table pt dl).map (fun tbl => tbl.getD (find_nearest egg_stage sf) 0)

/-- One particle of `update_egg_density`: only particles with `hatched == 0`
are in the `eggs` mask and get `density` reassigned; an unrecognized variant
selector makes the table unbound and the call fail (`none`). -/
def updateEggDensity (cfg : Config) (p : Particle) : Option Particle :=
  if p.hatched = 0 then
    (lookup_density cfg.port_townsend_eggs cfg.dark_or_light_egg_density
        p.stage_fraction).map (fun d => { p with density := d })
  else some p

/-- scipy `interp1d(zs, range(len(zs)), bounds_error=False)` evaluated at `x`:
piecewise-linear fractional index for `x` inside the knot range, and the
default `fill_value = nan` (here `none`) outside it. -/
def interp_index : List ℚ → ℚ → Option ℚ
  | [], _ => none
  | [z0], x => if x = z0 then some 0 else none
  | z0 :: z1 :: zs, x =>
    if x < z0 then none
    else if x ≤ z1 then some ((x - z0) / (z1 - z0))
    else (interp_index (z1 :: zs) x).map (fun t => t + 1)

/-- Profile interpolation of `update_terminal_velocity` for one particle:
`zi = interp1d(-env_z, range(n), bounds_error=False)(-z)`,
`upper = np.maximum(np.floor(zi).astype(np.uint8), 0)` (the `uint8` cast wraps
modulo 256), `lower = np.minimum(upper + 1, n - 1)`,
`weight_upper = 1 - (zi - upper)`, and the weighted sum of the two layers.
An out-of-range `zi` is NaN; the NaN weight makes the interpolated value NaN
whatever the cast produces, so the whole result is `none`. -/
def profile_interp (env_z prof : List ℚ) (z : ℚ) : Option ℚ :=
  match interp_index (env_z.map (fun w => -w)) (-z) with
  | none => none
  | some zi =>
    let upper : ℕ := (Int.toNat ⌊zi⌋) % 256
    let lower : ℕ := min (upper + 1) (prof.length - 1)
    let wu : ℚ := 1 - (zi - (upper : ℚ))
    some (prof.getD upper 0 * wu + prof.getD lower 0 * (1 - wu))

/-- The three core operations as calls on one particle, with the per-call
environment inputs they read. -/
inductive Op where
  | fishEggs (T ts : ℚ)
  | eggDensity (cfg : Config)
  | terminalVel (DENSw T S : ℚ)

/-- Apply one core operation to one particle (`update_terminal_velocity`
recomputes only `terminal_velocity`). -/
noncomputable def applyOp : Op → Particle → Option Particle
  | .fishEggs T ts, p => some (updateFishEggs T ts p)
  | .eggDensity cfg, p => updateEggDensity cfg p
  | .terminalVel DENSw T S, p =>
    some { p with terminal_velocity := terminalVelocity DENSw p.density p.diameter T S }

/-- Apply a sequence of core-operation calls, propagating a failed call. -/
noncomputable def applyOps : List Op → Particle → Option Particle
  | [], p => some p
  | op :: ops, p => (applyOp op p).bind (applyOps ops)

/-- A sequence of Stage Progression calls (temperature, timestep pairs). -/
def runFishEggs (calls : List (ℚ × ℚ)) (p : Particle) : Particle :=
  calls.foldl (fun q c => updateFishEggs c.1 c.2 q) p

/-- Sample unhatched egg (element defaults: diameter 0.0014 m, density 1024),
half-way through development. -/
def sampleEgg : Particle :=
  { diameter := 0.0014
    stage_fraction := 0.5
    age := 0
    density := 1024
    hatched := 0
    terminal_velocity := none }

/-- Sample hatched particle. -/
def sampleHatched : Particle :=
  { diameter := 0.0014
    stage_fraction := 1
    age := 12
    density := 1024
    hatched := 1
    terminal_velocity := none }

/-- The returned index is inside the array (nonempty input). -/
theorem find_nearest_lt_length (xs : List ℚ) (v : ℚ) (h : xs ≠ []) :
    find_nearest xs v < xs.length := by
  induction xs with
  | nil => exact absurd rfl h
  | cons x t ih =>
    cases t with
    | nil => simp [find_nearest]
    | cons y ys =>
      simp only [find_nearest]
      split
      · have hk := ih (by simp)
        simpa using Nat.succ_lt_succ hk
      · simp

/-- The returned index attains the minimum absolute distance (`np.argmin`). -/
theorem find_nearest_min (xs : List ℚ) (v : ℚ) :
    ∀ j < xs.length,
      |xs.getD (find_nearest xs v) 0 - v| ≤ |xs.getD j 0 - v| := by
  induction xs with
  | nil => intro j hj; simp at hj
  | cons x t ih =>
    intro j hj
    cases t with
    | nil =>
      have hj0 : j = 0 := by simpa using Nat.lt_one_iff.mp (by simpa using hj)
      subst hj0
      simp [find_nearest]
    | cons y ys =>
      simp only [find_nearest]
      split
      · next hc =>
        cases j with
        | zero => simpa using le_of_lt hc
        | succ j => simpa using ih j (by simpa using hj)
      · next hc =>
        cases j with
        | zero => simp
        | succ j =>
          have h1 : |x - v| ≤ |(y :: ys).getD (find_nearest (y :: ys) v) 0 - v| :=
            le_of_not_lt hc
          have h2 := ih j (by simpa using hj)
          simpa using le_trans h1 h2

/-- Ties go to the first occurrence: every strictly earlier index is strictly
farther (`np.argmin` returns the first index attaining the minimum). -/
theorem find_nearest_first (xs : List ℚ) (v : ℚ) :
    ∀ j < find_nearest xs v,
      |xs.getD (find_nearest xs v) 0 - v| < |xs.getD j 0 - v| := by
  induction xs with
  | nil => intro j hj; simp [find_nearest] at hj
  | cons x t ih =>
    intro j hj
    cases t with
    | nil => simp [find_nearest] at hj
    | cons y ys =>
      simp only [find_nearest] at hj ⊢
      split
      · next hc =>
        cases j with
        | zero => simpa using hc
        | succ j =>
          rw [if_pos hc] at hj
          simpa using ih j (Nat.lt_of_succ_lt_succ hj)
      · next hc =>
        rw [if_neg hc] at hj
        exact absurd hj (Nat.not_lt_zero j)

/-- Positive interior and right-end breakpoints of `egg_stage`. -/
theorem egg_stage_pos (j : ℕ) (hj : j < 16) (hj0 : 0 < j) :
    0 < egg_stage.getD j 0 := by
  interval_cases j <;> norm_num [egg_stage, List.getD]

/-- Breakpoints before the last one are strictly below 1. -/
theorem egg_stage_lt_one (j : ℕ) (hj : j < 15) :
    egg_stage.getD j 0 < 1 := by
  interval_cases j <;> norm_num [egg_stage, List.getD]

/-- Stage fractions below the table clamp to breakpoint 0. -/
theorem find_nearest_egg_stage_neg (v : ℚ) (hv : v < 0) :
    find_nearest egg_stage v = 0 := by
  by_contra hne
  have hlen : egg_stage.length = 16 := by simp [egg_stage]
  have hk : find_nearest egg_stage v < 16 := by
    have := find_nearest_lt_length egg_stage v (by simp [egg_stage])
    omega
  have h0 : 0 < find_nearest egg_stage v := Nat.pos_of_ne_zero hne
  have hstrict := find_nearest_first egg_stage v 0 h0
  have hsk : 0 < egg_stage.getD (find_nearest egg_stage v) 0 := egg_stage_pos _ hk h0
  have h00 : egg_stage.getD 0 0 = 0 := rfl
  rw [h00] at hstrict
  have ha : |egg_stage.getD (find_nearest egg_stage v) 0 - v|
      = egg_stage.getD (find_nearest egg_stage v) 0 - v := abs_of_pos (by linarith)
  have hb : |(0 : ℚ) - v| = -v := by
    rw [zero_sub, abs_neg, abs_of_neg hv]
  rw [ha, hb] at hstrict
  linarith

/-- Stage fractions above the table clamp to breakpoint 15 (value 1). -/
theorem find_nearest_egg_stage_gt (v : ℚ) (hv : 1 < v) :
    find_nearest egg_stage v = 15 := by
  by_contra hne
  have hk : find_nearest egg_stage v < 16 := by
    have := find_nearest_lt_length egg_stage v (by simp [egg_stage])
    simpa [egg_stage] using this
  have hk15 : find_nearest egg_stage v < 15 := by omega
  have hmin := find_nearest_min egg_stage v 15 (by simp [egg_stage])
  have h15 : egg_stage.getD 15 0 = 1 := rfl
  have hsk : egg_stage.getD (find_nearest egg_stage v) 0 < 1 :=
    egg_stage_lt_one _ hk15
  have ha : |egg_stage.getD (find_nearest egg_stage v) 0 - v|
      = v - egg_stage.getD (find_nearest egg_stage v) 0 := by
    rw [abs_sub_comm]
    exact abs_of_pos (by linarith)
  have hb : |egg_stage.getD 15 0 - v| = v - 1 := by
    rw [h15, abs_sub_comm]
    exact abs_of_pos (by linarith)
  rw [ha, hb] at hmin
  linarith

/-- Each recognized variant selects a 16-entry table. -/
theorem egg_density_table_length (pt : Bool) (dl : String) (tbl : List ℚ)
    (htbl : egg_density_table pt dl = some tbl) : tbl.length = 16 := by
  cases pt <;> simp only [egg_density_table] at htbl <;> split_ifs at htbl <;>
    simp only [Option.some.injEq] at htbl <;> subst htbl <;>
    simp [egg_density_pt_dark, egg_density_pt_light,
      egg_density_npt_dark, egg_density_npt_light]

/-- Claim C4: for every particle with `hatched == 0` and any real
`stage_fraction` (also outside `[0,1]`), the Density Lookup returns exactly
one of the 16 values of the active variant's table; outside `[0,1]` it is the
endpoint value (nearest-neighbor search clamps, no error is raised). -/
theorem density_table_membership (pt : Bool) (dl : String) (tbl : List ℚ)
    (sf : ℚ) (htbl : egg_density_table pt dl = some tbl) :
    lookup_density pt dl sf = some (tbl.getD (find_nearest egg_stage sf) 0) ∧
    tbl.getD (find_nearest egg_stage sf) 0 ∈ tbl ∧
    (sf < 0 → lookup_density pt dl sf = some (tbl.getD 0 0)) ∧
    (1 < sf → lookup_density pt dl sf = some (tbl.getD 15 0)) := by
  have hlen : tbl.length = 16 := egg_density_table_length pt dl tbl htbl
  have hval : lookup_density pt dl sf
      = some (tbl.getD (find_nearest egg_stage sf) 0) := by
    simp [lookup_density, htbl]
  refine ⟨hval, ?_, ?_, ?_⟩
  · have hk : find_nearest egg_stage sf < tbl.length := by
      have := find_nearest_lt_length egg_stage sf (by simp [egg_stage])
      simp only [hlen]
      simpa [egg_stage] using this
    rw [List.getD_eq_getElem?_getD, List.getElem?_eq_getElem hk]
    simp only [Option.getD_some]
    exact List.getElem_mem hk
  · intro hsf
    rw [hval, find_nearest_egg_stage_neg sf hsf]
  · intro hsf
    rw [hval, find_nearest_egg_stage_gt sf hsf]

/-- A concrete instance of the C4 guarantees (light port-townsend variant,
extrapolated stage fraction 2 clamps to the last breakpoint). -/
theorem density_table_membership_witness :
    lookup_density true "light" 2
      = some ((egg_density_pt_light.map (· * 1000)).getD 15 0) :=
  (density_table_membership true "light" (egg_density_pt_light.map (· * 1000))
    2 rfl).2.2.2 (by norm_num)

/-- Claim C5: the Density Lookup selects the breakpoint nearest to
`stage_fraction` by absolute distance, resolving exact ties to the lower
index; for `stage_fraction = 0.5` and the light, non-port-townsend variant
the distances to breakpoints 7 and 8 tie exactly, the tie goes to index 7
(breakpoint 0.466666667), and the output is that entry, 1025.518015. -/
theorem nearest_neighbor_choice :
    (∀ (v : ℚ) (j : ℕ), j < 16 →
        |egg_stage.getD (find_nearest egg_stage v) 0 - v|
          ≤ |egg_stage.getD j 0 - v|) ∧
    (∀ (v : ℚ) (j : ℕ), j < find_nearest egg_stage v →
        |egg_stage.getD (find_nearest egg_stage v) 0 - v|
          < |egg_stage.getD j 0 - v|) ∧
    |(0.466666667 : ℚ) - 0.5| = |(0.533333333 : ℚ) - 0.5| ∧
    find_nearest egg_stage 0.5 = 7 ∧
    egg_stage.getD 7 0 = 0.466666667 ∧
    lookup_density false "light" 0.5 = some 1025.518015 := by
  refine ⟨?_, ?_, ?_, ?_, rfl, ?_⟩
  · intro v j hj
    exact find_nearest_min egg_stage v j (by simpa [egg_stage] using hj)
  · intro v j hj
    exact find_nearest_first egg_stage v j hj
  · norm_num [abs, max_def]
  · norm_num [find_nearest, egg_stage, abs, max_def, List.getD]
  · have htbl : egg_density_table false "light"
        = some (egg_density_npt_light.map (· * 1000)) := rfl
    rw [lookup_density, htbl]
    norm_num [Option.map_some', find_nearest, egg_stage, abs, max_def,
      List.getD, egg_density_npt_light]

/-- A concrete instance of the C5 minimality property at `v = 0.5`, `j = 8`:
index 7 is at least as close as index 8. -/
theorem nearest_neighbor_choice_witness :
    |egg_stage.getD (find_nearest egg_stage 0.5) 0 - 0.5|
      ≤ |egg_stage.getD 8 0 - 0.5| :=
  nearest_neighbor_choice.1 0.5 8 (by norm_num)

/-- No single core operation resets `hatched` from 1 to 0. -/
theorem applyOp_hatched (op : Op) (p q : Particle) (hp : p.hatched = 1)
    (h : applyOp op p = some q) : q.hatched = 1 := by
  cases op with
  | fishEggs T ts =>
    simp only [applyOp, Option.some.injEq] at h
    subst h
    simp [updateFishEggs, hp]
  | eggDensity cfg =>
    simp only [applyOp, updateEggDensity, hp] at h
    rw [if_neg (by decide : ¬ (1 : ℕ) = 0)] at h
    simp only [Option.some.injEq] at h
    subst h
    exact hp
  | terminalVel DENSw T S =>
    simp only [applyOp, Option.some.injEq] at h
    subst h
    exact hp

/-- Claim C2: once `hatched` is 1, no sequence of calls to the three core
operations (`update_fish_eggs`, `update_egg_density`,
`update_terminal_velocity`) ever sets it back to 0. -/
theorem hatched_irreversible (ops : List Op) (p q : Particle)
    (hp : p.hatched = 1) (h : applyOps ops p = some q) : q.hatched = 1 := by
  induction ops generalizing p with
  | nil =>
    simp only [applyOps, Option.some.injEq] at h
    subst h
    exact hp
  | cons op ops ih =>
    simp only [applyOps] at h
    cases happ : applyOp op p with
    | none => rw [happ] at h; simp at h
    | some r =>
      rw [happ] at h
      simp only [Option.some_bind] at h
      exact ih r (applyOp_hatched op p r hp happ) h

/-- A hatched particle stays hatched through a concrete call sequence. -/
theorem hatched_irreversible_witness : sampleHatched.hatched = 1 :=
  hatched_irreversible
    [Op.fishEggs 10 3600, Op.eggDensity (setConfig "light" true)]
    sampleHatched sampleHatched rfl rfl

/-- Claim C3 counterexample: at temperature -10 °C the development-rate
regression `0.0506982 + 0.0149187 * T` is negative, so a Stage Progression
call with the positive timestep 3600 s strictly decreases `stage_fraction`
of an unhatched particle, contradicting "non-decreasing for every
temperature input". -/
theorem stage_monotone_counterexample :
    amb_duration (-10) < 0 ∧
    (updateFishEggs (-10) 3600 sampleEgg).stage_fraction
      < sampleEgg.stage_fraction := by
  constructor
  · norm_num [amb_duration]
  · norm_num [updateFishEggs, sampleEgg, amb_duration]

/-- One Stage Progression call never decreases `age` for a non-negative
timestep. -/
theorem updateFishEggs_age_le (T ts : ℚ) (p : Particle) (h : 0 ≤ ts) :
    p.age ≤ (updateFishEggs T ts p).age := by
  have h86 : 0 ≤ ts / 86400 := div_nonneg h (by norm_num)
  by_cases hp : p.hatched = 0
  · simp only [updateFishEggs, hp]
    simp only [if_pos]
    linarith
  · simp [updateFishEggs, hp]

/-- One Stage Progression call never decreases `stage_fraction` when the
timestep is non-negative and the development rate is non-negative. -/
theorem updateFishEggs_sf_le (T ts : ℚ) (p : Particle) (h : 0 ≤ ts)
    (h2 : 0 ≤ amb_duration T) :
    p.stage_fraction ≤ (updateFishEggs T ts p).stage_fraction := by
  have h3 : 0 ≤ ts / 86400 * amb_duration T :=
    mul_nonneg (div_nonneg h (by norm_num)) h2
  by_cases hp : p.hatched = 0
  · simp only [updateFishEggs, hp]
    simp only [if_pos]
    linarith
  · simp [updateFishEggs, hp]

/-- Claim C3 amended: across every sequence of Stage Progression calls with
non-negative timesteps, `age` is non-decreasing regardless of the
temperatures, and `stage_fraction` is non-decreasing provided each call's
temperature keeps the development-rate regression
`0.0506982 + 0.0149187 * T` non-negative (T ≳ -3.4 °C); for colder
temperatures the rate, and hence the stage increment, is negative. -/
theorem stage_age_monotone (calls : List (ℚ × ℚ)) (p : Particle)
    (h : ∀ c ∈ calls, 0 ≤ c.2) :
    p.age ≤ (runFishEggs calls p).age ∧
    ((∀ c ∈ calls, 0 ≤ amb_duration c.1) →
      p.stage_fraction ≤ (runFishEggs calls p).stage_fraction) := by
  induction calls generalizing p with
  | nil => simp [runFishEggs]
  | cons c cs ih =>
    have hc : 0 ≤ c.2 := h c (List.mem_cons_self c cs)
    have hcs : ∀ d ∈ cs, 0 ≤ d.2 :=
      fun d hd => h d (List.mem_cons_of_mem c hd)
    have hrun : runFishEggs (c :: cs) p
        = runFishEggs cs (updateFishEggs c.1 c.2 p) := by
      simp [runFishEggs, List.foldl_cons]
    have htail := ih (updateFishEggs c.1 c.2 p) hcs
    rw [hrun]
    constructor
    · exact le_trans (updateFishEggs_age_le c.1 c.2 p hc) htail.1
    · intro hr
      have hr0 : 0 ≤ amb_duration c.1 := hr c (List.mem_cons_self c cs)
      have hrs : ∀ d ∈ cs, 0 ≤ amb_duration d.1 :=
        fun d hd => hr d (List.mem_cons_of_mem c hd)
      exact le_trans (updateFishEggs_sf_le c.1 c.2 p hc hr0) (htail.2 hrs)

/-- Concrete monotone runs: one hour at the cold temperature -10 °C (where
the development rate is negative) still leaves `age` non-decreasing, and one
hour at 10 °C leaves `stage_fraction` non-decreasing. -/
theorem stage_age_monotone_witness :
    sampleEgg.age ≤ (runFishEggs [(-10, 3600)] sampleEgg).age ∧
    sampleEgg.stage_fraction
      ≤ (runFishEggs [(10, 3600)] sampleEgg).stage_fraction :=
  ⟨(stage_age_monotone [(-10, 3600)] sampleEgg (by norm_num)).1,
    (stage_age_monotone [(10, 3600)] sampleEgg (by norm_num)).2
      (by norm_num [amb_duration])⟩

/-- Out-of-bounds evaluation below every knot yields the NaN fill value. -/
theorem interp_index_none_low (zs : List ℚ) (x : ℚ) (h : ∀ w ∈ zs, x < w) :
    interp_index zs x = none := by
  induction zs with
  | nil => rfl
  | cons z0 t ih =>
    cases t with
    | nil =>
      have := h z0 (by simp)
      simp only [interp_index, if_neg (ne_of_lt this)]
    | cons z1 zs =>
      have := h z0 (by simp)
      simp only [interp_index, if_pos this]

/-- Out-of-bounds evaluation above every knot yields the NaN fill value. -/
theorem interp_index_none_high (zs : List ℚ) (x : ℚ) (h : ∀ w ∈ zs, w < x) :
    interp_index zs x = none := by
  induction zs with
  | nil => rfl
  | cons z0 t ih =>
    cases t with
    | nil =>
      have := h z0 (by simp)
      simp only [interp_index, if_neg (ne_of_gt this)]
    | cons z1 zs =>
      have h0 := h z0 (by simp)
      have h1 := h z1 (by simp)
      have ht : ∀ w ∈ z1 :: zs, w < x := by
        intro w hw
        exact h w (List.mem_cons_of_mem z0 hw)
      simp only [interp_index, if_neg (not_lt.mpr (le_of_lt h0)),
        if_neg (not_le.mpr h1), ih ht, Option.map_none']

/-- Claim C7 counterexample: with depth coordinate `z_profile = [0, -10]`
and temperature profile `[5, 7]`, a particle at `z = -20` (below the deepest
layer) does not receive the boundary-layer temperature 7 (nor 5): the scipy
inverse interpolation with `bounds_error=False` fills NaN (`none`) and the
interpolated value is NaN, not a clamped boundary value. -/
theorem profile_extrapolation_counterexample :
    profile_interp [0, -10] [5, 7] (-20) = none ∧
    profile_interp [0, -10] [5, 7] (-20) ≠ some 7 ∧
    profile_interp [0, -10] [5, 7] (-20) ≠ some 5 := by
  have h : profile_interp [0, -10] [5, 7] (-20) = none := by
    norm_num [profile_interp, interp_index]
  refine ⟨h, ?_, ?_⟩ <;> rw [h] <;> simp

/-- Claim C7 amended: when the particle depth lies strictly outside the
range of the profile depth coordinate, the inverse interpolation of `z`
against `z_profile` yields the NaN fill value (`interp1d` with
`bounds_error=False`), so the interpolated temperature/salinity is NaN
(`none`) rather than the value at the nearest boundary layer. -/
theorem profile_extrapolation_nan (env_z prof : List ℚ) (z : ℚ)
    (h : (∀ w ∈ env_z, -z < -w) ∨ (∀ w ∈ env_z, -w < -z)) :
    profile_interp env_z prof z = none := by
  have hnone : interp_index (env_z.map (fun w => -w)) (-z) = none := by
    cases h with
    | inl h =>
      refine interp_index_none_low _ _ ?_
      intro u hu
      rcases List.mem_map.mp hu with ⟨w, hw, rfl⟩
      exact h w hw
    | inr h =>
      refine interp_index_none_high _ _ ?_
      intro u hu
      rcases List.mem_map.mp hu with ⟨w, hw, rfl⟩
      exact h w hw
  simp only [profile_interp, hnone]

/-- A concrete out-of-range profile interpolation returns NaN (`none`). -/
theorem profile_extrapolation_nan_witness :
    profile_interp [0, -10] [5, 7] (-30) = none :=
  profile_extrapolation_nan [0, -10] [5, 7] (-30) (by norm_num)

/-- Claim C8 counterexample: the driver assigns the unrecognized selector
`"constant"`; setup (plain attribute assignment) accepts it without error,
and the failure instead occurs inside the per-timestep Density Lookup call
on an unhatched particle, where no table variant is ever bound. -/
theorem variant_selector_counterexample :
    (setConfig "constant" true).dark_or_light_egg_density = "constant" ∧
    updateEggDensity (setConfig "constant" true) sampleEgg = none := by
  exact ⟨rfl, rfl⟩

/-- Claim C8 amended: an unrecognized variant selector is not detected at
setup (configuration is plain attribute assignment); every per-timestep
Density Lookup call on a particle with `hatched == 0` then fails with the
table unbound, while calls seeing only hatched particles do not touch the
table and succeed. -/
theorem variant_selector_per_timestep (dl : String) (pt : Bool) (p : Particle)
    (h1 : dl ≠ "dark") (h2 : dl ≠ "light") :
    egg_density_table pt dl = none ∧
    (p.hatched = 0 → updateEggDensity (setConfig dl pt) p = none) ∧
    (p.hatched ≠ 0 → updateEggDensity (setConfig dl pt) p = some p) := by
  have htbl : egg_density_table pt dl = none := by
    cases pt <;> simp [egg_density_table, h1, h2]
  refine ⟨htbl, ?_, ?_⟩
  · intro hp
    simp [updateEggDensity, hp, lookup_density, setConfig, initConfig, htbl]
  · intro hp
    simp [updateEggDensity, hp]

/-- A concrete unrecognized selector: accepted at setup, fails in the
per-timestep lookup on an egg. -/
theorem variant_selector_per_timestep_witness :
    egg_density_table false "purple" = none ∧
    updateEggDensity (setConfig "purple" false) sampleEgg = none := by
  have h := variant_selector_per_timestep "purple" false sampleEgg
    (by decide) (by decide)
  exact ⟨h.1, h.2.1 rfl⟩

/-- The coefficient multiplying `dr` in the Stokes formula is positive for a
positive diameter and positive viscosity. -/
theorem stokes_coeff_pos (T0 S0 eggsize : ℚ) (hmu : 0 < my_w T0 S0)
    (hd : 0 < eggsize) :
    0 < (1 / my_w T0 S0) * (1 / 18) * g * eggsize ^ 2 := by
  have h1 : 0 < 1 / my_w T0 S0 := one_div_pos.mpr hmu
  have hg : (0 : ℚ) < g := by norm_num [g]
  exact mul_pos (mul_pos (mul_pos h1 (by norm_num)) hg) (pow_pos hd 2)

/-- The high-Reynolds empirical formula produces NaN whenever the density
difference is non-positive. -/
theorem W2_none_of_nonpos (DENSw density_egg eggsize T0 : ℚ)
    (hdr : DENSw - density_egg ≤ 0) :
    W2 DENSw density_egg eggsize T0 = none := by
  unfold W2
  by_cases h0 : DENSw - density_egg = 0
  · simp [h0]
  · have hlt : DENSw - density_egg < 0 := lt_of_le_of_ne hdr h0
    have hcast : (DENSw : ℝ) - (density_egg : ℝ) < 0 := by
      have h := hlt
      have h2 : ((DENSw - density_egg : ℚ) : ℝ) < 0 := by exact_mod_cast h
      push_cast at h2
      exact h2
    have hb2 : (0.001 : ℝ) * ((DENSw : ℝ) - (density_egg : ℝ)) < 0 :=
      mul_neg_of_pos_of_neg (by norm_num) hcast
    by_cases h1 : (9 * my_w_cgs (T0 : ℝ) ^ 2 / (100 * (g : ℝ)) * (DENSw : ℝ)
        / ((DENSw : ℝ) - (density_egg : ℝ))) < 0 <;>
      by_cases h3 : (my_w_cgs (T0 : ℝ) * 0.001 * (DENSw : ℝ)) < 0 <;>
        simp [npPow, h0, h1, h3, hb2]

/-- Claim C1 counterexample: a particle denser than the water
(`density = 1030 > ρw = 1026`) gets a strictly negative terminal velocity,
not a positive one: the code computes `dr = DENSw - density` and the Stokes
velocity carries the sign of `dr` (positive velocity means upward in the
host's convention). -/
theorem terminal_velocity_sign_counterexample :
    (1026 : ℚ) < 1030 ∧
    terminalVelocity 1026 1030 0.0014 10 34
      = some ((W_stokes 1026 1030 0.0014 10 34 : ℚ) : ℝ) ∧
    W_stokes 1026 1030 0.0014 10 34 < 0 := by
  refine ⟨by norm_num, ?_, by norm_num [W_stokes, my_w, g]⟩
  unfold terminalVelocity
  rw [if_neg (by norm_num [reynolds, W_stokes, my_w, g])]

/-- Claim C1 amended: the sign convention is the reverse of the spec's: for
`density > ρw` (denser particle) the final `terminal_velocity` is strictly
negative (the Stokes branch is always selected there), and for
`density < ρw` the Stokes velocity is strictly positive and is the final
`terminal_velocity` whenever the low-Reynolds branch applies (`Re <= 0.5`). -/
theorem terminal_velocity_sign (DENSw density_egg eggsize T0 S0 : ℚ)
    (hmu : 0 < my_w T0 S0) (hd : 0 < eggsize) :
    (DENSw < density_egg →
      terminalVelocity DENSw density_egg eggsize T0 S0
        = some ((W_stokes DENSw density_egg eggsize T0 S0 : ℚ) : ℝ) ∧
      W_stokes DENSw density_egg eggsize T0 S0 < 0) ∧
    (density_egg < DENSw →
      0 < W_stokes DENSw density_egg eggsize T0 S0 ∧
      (reynolds DENSw density_egg eggsize T0 S0 ≤ 0.5 →
        terminalVelocity DENSw density_egg eggsize T0 S0
          = some ((W_stokes DENSw density_egg eggsize T0 S0 : ℚ) : ℝ))) := by
  have hA := stokes_coeff_pos T0 S0 eggsize hmu hd
  constructor
  · intro hlt
    have hW : W_stokes DENSw density_egg eggsize T0 S0 < 0 := by
      unfold W_stokes
      exact mul_neg_of_pos_of_neg hA (by linarith)
    have hRe : reynolds DENSw density_egg eggsize T0 S0 < 0 := by
      unfold reynolds
      apply div_neg_of_neg_of_pos ?_ hmu
      exact mul_neg_of_neg_of_pos
        (mul_neg_of_neg_of_pos hW (by norm_num)) hd
    refine ⟨?_, hW⟩
    unfold terminalVelocity
    rw [if_neg (not_lt.mpr (by linarith))]
  · intro hlt
    have hW : 0 < W_stokes DENSw density_egg eggsize T0 S0 := by
      unfold W_stokes
      exact mul_pos hA (by linarith)
    refine ⟨hW, fun hre => ?_⟩
    unfold terminalVelocity
    rw [if_neg (not_lt.mpr hre)]

/-- A concrete denser-than-water particle sinks (negative velocity). -/
theorem terminal_velocity_sign_witness :
    terminalVelocity 1027 1035 0.0014 10 34
      = some ((W_stokes 1027 1035 0.0014 10 34 : ℚ) : ℝ) ∧
    W_stokes 1027 1035 0.0014 10 34 < 0 :=
  (terminal_velocity_sign 1027 1035 0.0014 10 34
    (by norm_num [my_w]) (by norm_num)).1 (by norm_num)

/-- Claim C6: the final `terminal_velocity` is the Stokes value `W` where
`Re = W * 1000 * diameter / my_w <= 0.5` and the high-Reynolds empirical
value `W2` where `Re > 0.5`; the switch uses `<=`, so `Re` exactly 0.5 takes
the low-Reynolds branch. -/
theorem reynolds_regime_switch (DENSw density_egg eggsize T0 S0 : ℚ) :
    (reynolds DENSw density_egg eggsize T0 S0 ≤ 0.5 →
      terminalVelocity DENSw density_egg eggsize T0 S0
        = some ((W_stokes DENSw density_egg eggsize T0 S0 : ℚ) : ℝ)) ∧
    (0.5 < reynolds DENSw density_egg eggsize T0 S0 →
      terminalVelocity DENSw density_egg eggsize T0 S0
        = W2 DENSw density_egg eggsize T0) ∧
    (reynolds DENSw density_egg eggsize T0 S0 = 0.5 →
      terminalVelocity DENSw density_egg eggsize T0 S0
        = some ((W_stokes DENSw density_egg eggsize T0 S0 : ℚ) : ℝ)) := by
  refine ⟨fun h => ?_, fun h => ?_, fun h => ?_⟩
  · unfold terminalVelocity
    rw [if_neg (not_lt.mpr h)]
  · unfold terminalVelocity
    rw [if_pos h]
  · unfold terminalVelocity
    rw [if_neg (not_lt.mpr (le_of_eq h))]

/-- Concrete branch selections: a small density difference stays in the
Stokes regime, and an input tuned to `Re` exactly 0.5 also takes the
low-Reynolds branch. -/
theorem reynolds_regime_switch_witness :
    terminalVelocity 1026 1025 0.0014 10 34
      = some ((W_stokes 1026 1025 0.0014 10 34 : ℚ) : ℝ) ∧
    reynolds (64189445 / 21800000000000000) 0 1 0 0 = 0.5 ∧
    terminalVelocity (64189445 / 21800000000000000) 0 1 0 0
      = some ((W_stokes (64189445 / 21800000000000000) 0 1 0 0 : ℚ) : ℝ) :=
  ⟨(reynolds_regime_switch 1026 1025 0.0014 10 34).1
      (by norm_num [reynolds, W_stokes, my_w, g]),
    by norm_num [reynolds, W_stokes, my_w, g],
    (reynolds_regime_switch (64189445 / 21800000000000000) 0 1 0 0).2.2
      (by norm_num [reynolds, W_stokes, my_w, g])⟩

/-- Claim C9 counterexample: a Stage Progression call with negative
`timestep_seconds` is not rejected — it computes and stores a decreased
`stage_fraction` and `age` — and a Terminal Velocity call with zero
`diameter` is not rejected — it computes and stores velocity 0. -/
theorem input_rejection_counterexample :
    (updateFishEggs 10 (-3600) sampleEgg).stage_fraction
      < sampleEgg.stage_fraction ∧
    (updateFishEggs 10 (-3600) sampleEgg).age < sampleEgg.age ∧
    terminalVelocity 1026 1025 0 10 34 = some ((0 : ℚ) : ℝ) := by
  refine ⟨?_, ?_, ?_⟩
  · norm_num [updateFishEggs, sampleEgg, amb_duration]
  · norm_num [updateFishEggs, sampleEgg]
  · unfold terminalVelocity
    rw [if_neg (by norm_num [reynolds, W_stokes, my_w, g])]
    norm_num [W_stokes, my_w, g]

/-- Claim C9 amended: neither operation validates its inputs at the call
boundary: for any timestep (also negative or zero) Stage Progression
computes and stores the incremented `age` and `stage_fraction`, and for zero
`diameter` the solver computes and stores the (physically meaningless)
velocity 0. -/
theorem input_not_validated (T ts DENSw density_egg T1 S1 : ℚ) (p : Particle)
    (_hts : ts ≤ 0) (hp : p.hatched = 0) :
    (updateFishEggs T ts p).age = p.age + ts / 86400 ∧
    (updateFishEggs T ts p).stage_fraction
      = p.stage_fraction + ts / 86400 * amb_duration T ∧
    W_stokes DENSw density_egg 0 T1 S1 = 0 ∧
    terminalVelocity DENSw density_egg 0 T1 S1 = some ((0 : ℚ) : ℝ) := by
  have hW : W_stokes DENSw density_egg 0 T1 S1 = 0 := by
    unfold W_stokes
    ring
  have hRe : reynolds DENSw density_egg 0 T1 S1 = 0 := by
    unfold reynolds
    simp
  refine ⟨?_, ?_, hW, ?_⟩
  · simp [updateFishEggs, hp]
  · simp [updateFishEggs, hp]
  · unfold terminalVelocity
    rw [if_neg (by rw [hRe]; norm_num), hW]

/-- A concrete invalid-input call that still computes and stores. -/
theorem input_not_validated_witness :
    (updateFishEggs 10 (-3600) sampleEgg).age = sampleEgg.age + -3600 / 86400 ∧
    terminalVelocity 1026 1025 0 10 34 = some ((0 : ℚ) : ℝ) := by
  have h := input_not_validated 10 (-3600) 1026 1025 10 34 sampleEgg
    (by norm_num) rfl
  exact ⟨h.1, h.2.2.2⟩

/-- Claim C10: for `Δρ = ρw − density <= 0` (egg at least as dense as the
water, positive viscosity, positive diameter) the Stokes velocity is
non-positive, the Reynolds test `W * 1000 * diameter / my_w > 0.5` is false,
and the final `terminal_velocity` is always the Stokes value; the
high-Reynolds value — NaN for such `Δρ` — is never selected into the
output. -/
theorem high_reynolds_never_selected (DENSw density_egg eggsize T0 S0 : ℚ)
    (hmu : 0 < my_w T0 S0) (hd : 0 < eggsize)
    (hdr : DENSw - density_egg ≤ 0) :
    W_stokes DENSw density_egg eggsize T0 S0 ≤ 0 ∧
    reynolds DENSw density_egg eggsize T0 S0 ≤ 0.5 ∧
    terminalVelocity DENSw density_egg eggsize T0 S0
      = some ((W_stokes DENSw density_egg eggsize T0 S0 : ℚ) : ℝ) ∧
    W2 DENSw density_egg eggsize T0 = none := by
  have hA := stokes_coeff_pos T0 S0 eggsize hmu hd
  have hW : W_stokes DENSw density_egg eggsize T0 S0 ≤ 0 := by
    unfold W_stokes
    nlinarith
  have hnum : W_stokes DENSw density_egg eggsize T0 S0 * 1000 * eggsize ≤ 0 := by
    nlinarith
  have hRe : reynolds DENSw density_egg eggsize T0 S0 ≤ 0.5 := by
    unfold reynolds
    have := div_nonpos_iff.mpr (Or.inr ⟨hnum, hmu.le⟩)
    linarith
  refine ⟨hW, hRe, ?_, W2_none_of_nonpos DENSw density_egg eggsize T0 hdr⟩
  unfold terminalVelocity
  rw [if_neg (not_lt.mpr hRe)]

/-- A concrete denser-than-water egg keeps the Stokes (low-Reynolds) value
and the high-Reynolds formula is NaN there. -/
theorem high_reynolds_never_selected_witness :
    terminalVelocity 1024 1030 0.0014 10 34
      = some ((W_stokes 1024 1030 0.0014 10 34 : ℚ) : ℝ) ∧
    W2 1024 1030 0.0014 10 = none := by
  have h := high_reynolds_never_selected 1024 1030 0.0014 10 34
    (by norm_num [my_w]) (by norm_num) (by norm_num)
  exact ⟨h.2.2.1, h.2.2.2⟩

end ACTEA
